import Mathlib

/-!
Verification of the device-connectivity subsystem of the monitor-de-audio
repository: the protocol client (src/server/matrix-client.ts), the
reconnection watchdog (src/server/reconnect-watchdog.ts) and the discovery
scanner (src/server/network-scanner.ts), shallowly embedded in Lean.

JavaScript numbers that the claims are about are modelled as rationals
(exact decimal values; every concrete number in the claims is exact in
both representations), except for the logarithmic level conversions,
which are modelled over the reals.  JavaScript strings are Lean strings;
the string operations the code uses (trim, split, the numeric-suffix
regular expression, parseFloat) are implemented below on character lists,
following the JavaScript semantics, so that all of them evaluate inside
the kernel.
-/

set_option maxRecDepth 8192

namespace MonitorAudio

/-! ## JavaScript string primitives used by matrix-client.ts -/

/-- The whitespace characters relevant to JavaScript trim / \s for the
strings this protocol handles: space, tab, newline, carriage return,
vertical tab, form feed. -/
def jsWS (c : Char) : Bool :=
  c == ' ' || c == '\t' || c == '\n' || c == '\r' || c == '\x0b' || c == '\x0c'

/-- `String.prototype.trim`: remove leading and trailing whitespace.
The trailing side is removed first so that the outermost operation is a
leading `dropWhile`, which keeps the head-of-result lemma direct; the
composite is the same function either way. -/
def jsTrimList (cs : List Char) : List Char :=
  ((cs.reverse.dropWhile jsWS).reverse).dropWhile jsWS

def jsTrim (s : String) : String :=
  String.mk (jsTrimList s.data)

/-- `split("\n")` on a character list: the chunks between newline
characters, in order, empty chunks kept (JavaScript semantics). -/
def splitNL : List Char → List (List Char)
  | [] => [[]]
  | c :: rest =>
    match splitNL rest with
    | [] => [[c]]
    | h :: t => if c = '\n' then [] :: h :: t else (c :: h) :: t

def jsSplitLines (s : String) : List String :=
  (splitNL s.data).map String.mk

/-- A character matched by the character class `[-\d.]` of the
numeric-suffix regular expressions in matrix-client.ts. -/
def numChar (c : Char) : Bool :=
  c.isDigit || c == '-' || c == '.'

/-- The regular expression `/([-\d.]+)\s*$/` applied to a response line:
the longest trailing run of `[-\d.]` characters that sits before the
trailing whitespace, or `none` when there is no such character (the
regular expression does not match). -/
def numSuffix (s : String) : Option String :=
  let run := (s.data.reverse.dropWhile jsWS).takeWhile numChar
  if run.isEmpty then none else some (String.mk run.reverse)

/-- Value of a digit list read as a decimal natural number. -/
def digitsVal (ds : List Char) : Nat :=
  ds.foldl (fun a c => 10 * a + (c.toNat - 48)) 0

/-- JavaScript `parseFloat` restricted to the `[-\d.]` alphabet the
suffix regular expression can capture: an optional sign, then the longest
prefix of the form `digits`, `digits.digits` or `.digits`; `none` models
the `NaN` result when no such prefix exists. -/
def parseFloatQ (s : String) : Option ℚ :=
  let (sgn, cs) :=
    match s.data with
    | '-' :: rest => ((-1 : ℚ), rest)
    | '+' :: rest => ((1 : ℚ), rest)
    | cs => ((1 : ℚ), cs)
  let intDs := cs.takeWhile Char.isDigit
  let cs2 := cs.dropWhile Char.isDigit
  match cs2 with
  | '.' :: rest =>
    let fracDs := rest.takeWhile Char.isDigit
    if intDs.isEmpty ∧ fracDs.isEmpty then none
    else some (sgn * ((digitsVal intDs : ℚ) + (digitsVal fracDs : ℚ) / (10 : ℚ) ^ fracDs.length))
  | _ => if intDs.isEmpty then none else some (sgn * (digitsVal intDs : ℚ))

/-- The parse step shared by `getGain`, `getSend` and `getVU`
(matrix-client.ts lines 288-292, 304-312, 318-322):
`const match = resp.match(/([-\d.]+)\s*$/); return match ? parseFloat(match[1]) : -60;`.
`some q` is a numeric return value, `none` models `NaN` (a suffix the
character class matches that is not a number). -/
def parseDbOrFloor (resp : String) : Option ℚ :=
  match numSuffix resp with
  | none => some (-60)
  | some tok => parseFloatQ tok

/-- The value denoted by `q.toFixed(1)`: `q` rounded to one decimal
place.  Every number the simulator stores travels through this
rendering, and the rendered decimal parses back to exactly this value. -/
def toFixed1 (q : ℚ) : ℚ :=
  (round (q * 10) : ℚ) / 10

/-- `Math.max(-60, Math.min(10, dB))` — the clamp `setGain` and
`setSend` apply before transmission (matrix-client.ts lines 284, 300). -/
def clampDb (q : ℚ) : ℚ :=
  max (-60) (min 10 q)

/-- `Math.max(-60, Math.min(0, v))` — the clamp of the simulator VU
random walk (matrix-client.ts line 108). -/
def clampVU (q : ℚ) : ℚ :=
  max (-60) (min 0 q)

/-! ## MatrixClient (src/server/matrix-client.ts) -/

/-- `MatrixClientConfig` (matrix-client.ts lines 47-54).  `protocol` is
`"tcp" | "udp"`, modelled as a Boolean `protocolTcp`. -/
structure MatrixClientConfig where
  host : String
  port : Nat
  protocolTcp : Bool
  simulatorMode : Bool
  reconnectInterval : Nat
  commandTimeout : Nat
deriving DecidableEq

/-- `DEFAULT_CONFIG` (matrix-client.ts lines 56-63). -/
def DEFAULT_CONFIG : MatrixClientConfig :=
  { host := "192.168.2.1", port := 3000, protocolTcp := true,
    simulatorMode := false, reconnectInterval := 3000, commandTimeout := 2000 }

/-- `Partial<MatrixClientConfig>`: each field optionally overridden. -/
structure ConfigPatch where
  host : Option String := none
  port : Option Nat := none
  protocolTcp : Option Bool := none
  simulatorMode : Option Bool := none
  reconnectInterval : Option Nat := none
  commandTimeout : Option Nat := none
deriving DecidableEq

/-- The spread `{ ...DEFAULT_CONFIG, ...config }` of the constructor
(matrix-client.ts line 83). -/
def mergeConfig (base : MatrixClientConfig) (p : ConfigPatch) : MatrixClientConfig :=
  { host := p.host.getD base.host,
    port := p.port.getD base.port,
    protocolTcp := p.protocolTcp.getD base.protocolTcp,
    simulatorMode := p.simulatorMode.getD base.simulatorMode,
    reconnectInterval := p.reconnectInterval.getD base.reconnectInterval,
    commandTimeout := p.commandTimeout.getD base.commandTimeout }

/-- Channel classes `"IN" | "OUT" | "STIN"` of the Nctrl commands. -/
inductive ChannelClass | cIN | cOUT | cSTIN
deriving DecidableEq

/-- An entry of `pendingCommands` (matrix-client.ts lines 71-74, 202-207):
the key `cmdId` is modelled as a fresh natural number, the command text is
what the closure of the timeout callback captures, and `deadline` is the
instant `now + commandTimeout` at which the timeout timer fires. -/
structure PendingEntry where
  id : Nat
  cmd : String
  deadline : Nat
deriving DecidableEq

/-- Events the client emits (`connected`, `disconnected`, `error`). -/
inductive ClientEvent | connected | disconnected | errorEvt
deriving DecidableEq

/-- Settlement of one pending command: `resolved` is a call of its
`resolve` with a response line, `rejected` a call of its `reject`. -/
inductive Outcome
  | resolved (id : Nat) (line : String)
  | rejected (id : Nat) (msg : String)
deriving DecidableEq

/-- A JavaScript `Map` as an insertion-ordered association list:
`set` overwrites in place when the key exists, appends otherwise. -/
def mapSet {κ α : Type} [DecidableEq κ] (m : List (κ × α)) (k : κ) (v : α) :
    List (κ × α) :=
  if m.any (fun kv => kv.1 = k) then
    m.map (fun kv => if kv.1 = k then (k, v) else kv)
  else m ++ [(k, v)]

/-- `Map.get`: the value of the first (and only) entry with the key. -/
def mapGet {κ α : Type} [DecidableEq κ] (m : List (κ × α)) (k : κ) : Option α :=
  (m.find? (fun kv => kv.1 = k)).map (fun kv => kv.2)

/-- The state of a `MatrixClient` instance (matrix-client.ts lines 65-79),
plus the log `emitted` of events the instance has emitted.  The string
keys such as `"IN:3"` and `"SEND:IN:2:OUT:5"` of the simulator maps are
built injectively from the class and numbers, so they are modelled as the
corresponding tuples.  The resolve/reject/timer closures of a pending
entry are represented by `Outcome` values produced at settlement. -/
structure ClientState where
  config : MatrixClientConfig
  connected : Bool
  pending : List PendingEntry
  simulatorVU : List ((ChannelClass × Nat) × ℚ)
  simulatorGains : List ((ChannelClass × Nat) × ℚ)
  simulatorMutes : List ((ChannelClass × Nat) × Bool)
  simulatorSends : List ((ChannelClass × Nat × Nat) × ℚ)
  simulatorPreset : Nat
  emitted : List ClientEvent
deriving DecidableEq

/-- `initSimulator` (matrix-client.ts lines 89-114): seeds gains, mutes
and VU values for IN 1-20, OUT 1-8 and STIN 1-3, marks the client
connected and emits `connected`.  `rand` is the oracle for the successive
`Math.random()` calls, indexed in call order (IN seeds use calls 0-19,
OUT seeds calls 20-27); each call returns a value in `[0, 1)`.  The
`setInterval` VU jitter it installs is the transition `simTick` below. -/
def initSimulator (st : ClientState) (rand : Nat → ℚ) : ClientState :=
  { st with
    simulatorGains :=
      ((List.range 20).map (fun i => ((ChannelClass.cIN, i + 1), (-10 : ℚ)))) ++
      ((List.range 8).map (fun i => ((ChannelClass.cOUT, i + 1), (-10 : ℚ)))) ++
      ((List.range 3).map (fun i => ((ChannelClass.cSTIN, i + 1), (-10 : ℚ)))),
    simulatorMutes :=
      ((List.range 20).map (fun i => ((ChannelClass.cIN, i + 1), false))) ++
      ((List.range 8).map (fun i => ((ChannelClass.cOUT, i + 1), false))) ++
      ((List.range 3).map (fun i => ((ChannelClass.cSTIN, i + 1), false))),
    simulatorVU :=
      ((List.range 20).map (fun i => ((ChannelClass.cIN, i + 1), -20 - rand i * 20))) ++
      ((List.range 8).map (fun i => ((ChannelClass.cOUT, i + 1), -15 - rand (20 + i) * 15))),
    connected := true,
    emitted := st.emitted ++ [ClientEvent.connected] }

/-- One firing of the simulator VU `setInterval` callback
(matrix-client.ts lines 106-111): every stored VU value moves by its own
random step and is clamped to `[-60, 0]`.  `delta` gives each key the
value of `(Math.random() - 0.5) * 4` for this firing; the clamp holds
whatever `delta` returns. -/
def simTick (st : ClientState) (delta : ChannelClass × Nat → ℚ) : ClientState :=
  { st with
    simulatorVU := st.simulatorVU.map (fun kv => (kv.1, clampVU (kv.2 + delta kv.1))) }

/-- The field values of a fresh instance before the constructor body
conditionally runs `initSimulator`: the merged config and the declared
initial values of matrix-client.ts lines 67-79. -/
def constructBase (p : ConfigPatch) : ClientState :=
  { config := mergeConfig DEFAULT_CONFIG p, connected := false, pending := [],
    simulatorVU := [], simulatorGains := [], simulatorMutes := [],
    simulatorSends := [], simulatorPreset := 1, emitted := [] }

/-- The constructor (matrix-client.ts lines 81-87): merge the config over
the defaults and, in simulator mode, run `initSimulator` before the
constructor returns. -/
def constructMC (p : ConfigPatch) (rand : Nat → ℚ) : ClientState :=
  if (mergeConfig DEFAULT_CONFIG p).simulatorMode then
    initSimulator (constructBase p) rand
  else constructBase p

/-- `isConnected()` (matrix-client.ts lines 349-351). -/
def isConnected (st : ClientState) : Bool :=
  st.connected

/-- Processing of one line inside `handleResponse` (matrix-client.ts
lines 168-188): skip the line when its trim is empty; otherwise the
`pendingCommands.forEach` resolves EVERY pending entry with this same
trimmed line, clears each timeout and deletes each entry, leaving the
pending map empty.  (The VU-event emission of lines 172-181 does not
touch the pending map and is not modelled here.) -/
def handleLine (acc : ClientState × List Outcome) (line : String) :
    ClientState × List Outcome :=
  let st := acc.1
  let trimmed := jsTrim line
  if trimmed = "" then acc
  else
    ({ st with pending := [] },
     acc.2 ++ st.pending.map (fun e => Outcome.resolved e.id trimmed))

/-- `handleResponse(data)` (matrix-client.ts lines 166-189):
`data.trim().split("\n")` processed line by line. -/
def handleResponse (st : ClientState) (data : String) :
    ClientState × List Outcome :=
  (jsSplitLines (jsTrim data)).foldl handleLine (st, [])

/-- The synchronous part of `sendRaw` outside simulator mode
(matrix-client.ts lines 191-215): reject immediately when not connected;
otherwise register a pending entry whose timeout timer is armed for
`now + commandTimeout`, and write the payload.  The returned option is
the immediate rejection, if any.  (The simulator branch of lines 193-196
resolves through `simulateResponse` and never touches `pendingCommands`;
it is modelled by the `…Sim` operations below.) -/
def sendRawStart (st : ClientState) (cmd : String) (id now : Nat) :
    ClientState × Option String :=
  if st.config.simulatorMode then (st, none)
  else if st.connected = false then (st, some "Não conectado ao mixer")
  else
    ({ st with pending := st.pending ++ [⟨id, cmd, now + st.config.commandTimeout⟩] },
     none)

/-- The timeout callback of a pending command (matrix-client.ts lines
203-206): it can only fire while its entry is still pending (a resolved
entry had `clearTimeout` called); it deletes the entry and rejects with
`Timeout: <command>`. -/
def timeoutFire (st : ClientState) (id : Nat) : ClientState × List Outcome :=
  match st.pending.find? (fun e => e.id = id) with
  | some e =>
    ({ st with pending := st.pending.filter (fun e2 => ¬ e2.id = id) },
     [Outcome.rejected id ("Timeout: " ++ e.cmd)])
  | none => (st, [])

/-! ### The public API in simulator mode

In simulator mode every operation goes `public method → command string →
simulateResponse → response string → numeric-suffix parse`.  The command
and response strings render their numeric field with `toFixed(1)` and the
simulator reads it back with `parseFloat`; that decimal round trip is
exact, so the composite of each pipeline is written here directly over
the values, with the rendering step appearing as `toFixed1`. -/

/-- `setGain` in simulator mode (matrix-client.ts lines 283-286 composed
with the `SET GAIN` branch of `simulateResponse`, lines 237-242): the dB
argument is clamped to `[-60, 10]`, rendered with `toFixed(1)`, and the
simulator stores `parseFloat` of that rendering. -/
def setGainSim (st : ClientState) (c : ChannelClass) (n : Nat) (dB : ℚ) :
    ClientState :=
  let v := toFixed1 (clampDb dB)
  { st with simulatorGains := mapSet st.simulatorGains (c, n) v }

/-- `getGain` in simulator mode (matrix-client.ts lines 288-292 composed
with the `GET GAIN` branch of `simulateResponse`, lines 229-234): the
stored value (default `-10`) is rendered with `toFixed(1)` into the
response, whose numeric suffix the client parses back. -/
def getGainSim (st : ClientState) (c : ChannelClass) (n : Nat) : ℚ :=
  toFixed1 ((mapGet st.simulatorGains (c, n)).getD (-10))

/-- `setSend` in simulator mode (matrix-client.ts lines 294-302 composed
with the `SET SEND` branch of `simulateResponse`, lines 245-250): same
clamp as `setGain`, keyed by source channel and bus. -/
def setSendSim (st : ClientState) (c : ChannelClass) (n bus : Nat) (dB : ℚ) :
    ClientState :=
  let v := toFixed1 (clampDb dB)
  { st with simulatorSends := mapSet st.simulatorSends (c, n, bus) v }

/-- `getSend` in simulator mode (matrix-client.ts lines 304-312 composed
with the `GET SEND` branch of `simulateResponse`, lines 253-258). -/
def getSendSim (st : ClientState) (c : ChannelClass) (n bus : Nat) : ℚ :=
  toFixed1 ((mapGet st.simulatorSends (c, n, bus)).getD (-10))

/-- `getVU` in simulator mode (matrix-client.ts lines 318-322 composed
with the `GET VU` branch of `simulateResponse`, lines 221-226): the
stored VU value (default `-40`) rendered with `toFixed(1)` and parsed
back from the numeric suffix of the response. -/
def getVUSim (st : ClientState) (c : ChannelClass) (n : Nat) : ℚ :=
  toFixed1 ((mapGet st.simulatorVU (c, n)).getD (-40))

/-- All VU values the simulator holds lie in `[-60, 0]`. -/
def VUBounds (st : ClientState) : Prop :=
  ∀ kv ∈ st.simulatorVU, (-60 : ℚ) ≤ kv.2 ∧ kv.2 ≤ 0

/-! ## ReconnectWatchdog (src/server/reconnect-watchdog.ts)

The watchdog is an event-driven object on the Node timer runtime.  The
embedding keeps, next to the fields of the class, the runtime facts the
claims are about: `liveTimers` is the list of `setTimeout` handles that
are scheduled and have neither fired nor been cleared (`timer =
setTimeout(...)` appends a fresh handle, `clearTimeout(this.timer)`
removes the referenced one, firing removes the fired one), and
`inFlight` counts calls of the injected `reconnect()` whose completion
continuation inside `_attempt` has not yet run. -/

/-- `WatchdogState` (reconnect-watchdog.ts line 15). -/
inductive WdState | idle | watching | connecting | connected | stopped
deriving DecidableEq

/-- `BASE_INTERVAL_MS` (reconnect-watchdog.ts line 27). -/
def BASE_INTERVAL_MS : Nat := 30000

/-- `MAX_INTERVAL_MS` (reconnect-watchdog.ts line 29). -/
def MAX_INTERVAL_MS : Nat := 300000

/-- `BACKOFF_MULTIPLIER` (reconnect-watchdog.ts line 31). -/
def BACKOFF_MULTIPLIER : Nat := 2

/-- The events the watchdog emits. -/
inductive WdEvent
  | stateChange (next prev : WdState)
  | attempt (n : Nat)
  | failed (n : Nat) (reason : String)
  | reconnected (n : Nat)
deriving DecidableEq

/-- Fields of `ReconnectWatchdog` (reconnect-watchdog.ts lines 33-46)
plus the runtime bookkeeping described above.  `configured` stands for
`reconnectFn` and `isConnectedFn` both being non-null. -/
structure Watchdog where
  state : WdState
  attempts : Nat
  lastAttemptAt : Option Nat
  nextAttemptAt : Option Nat
  lastError : Option String
  currentIntervalMs : Nat
  timerField : Option Nat
  stopped : Bool
  configured : Bool
  liveTimers : List Nat
  nextHandle : Nat
  inFlight : Nat
  emitted : List WdEvent
deriving DecidableEq

/-- The initial field values (reconnect-watchdog.ts lines 34-46). -/
def initW : Watchdog :=
  { state := WdState.idle, attempts := 0, lastAttemptAt := none,
    nextAttemptAt := none, lastError := none,
    currentIntervalMs := BASE_INTERVAL_MS, timerField := none,
    stopped := false, configured := false, liveTimers := [],
    nextHandle := 0, inFlight := 0, emitted := [] }

/-- `_setState` (reconnect-watchdog.ts lines 141-147): assign the state
and emit `stateChange(newState, prev)` exactly when it changed. -/
def setStateW (w : Watchdog) (s : WdState) : Watchdog :=
  { w with
    state := s,
    emitted := if w.state ≠ s then w.emitted ++ [WdEvent.stateChange s w.state]
               else w.emitted }

/-- `if (this.timer) { clearTimeout(this.timer); this.timer = null; }`:
the handle the field references stops being live. -/
def clearTimerW (w : Watchdog) : Watchdog :=
  match w.timerField with
  | some h => { w with timerField := none, liveTimers := w.liveTimers.erase h }
  | none => w

/-- `_scheduleNext` (reconnect-watchdog.ts lines 149-163): no-op when
stopped, otherwise record the next-attempt time and assign a fresh
`setTimeout` handle to `this.timer`.  The assignment overwrites the field
without clearing: a handle the field previously held stays live. -/
def scheduleNextW (w : Watchdog) (now : Nat) : Watchdog :=
  if w.stopped then w
  else
    { w with
      nextAttemptAt := some (now + w.currentIntervalMs),
      timerField := some w.nextHandle,
      liveTimers := w.liveTimers ++ [w.nextHandle],
      nextHandle := w.nextHandle + 1 }

/-- `configure` (reconnect-watchdog.ts lines 56-62). -/
def configureW (w : Watchdog) : Watchdog :=
  { w with configured := true }

/-- `start` (reconnect-watchdog.ts lines 68-80): no-op while `watching`
or `connecting`, no-op (with a warning) when not configured; otherwise
clear `stopped`, reset the interval to the base, transition to
`watching` and schedule the first attempt. -/
def startW (w : Watchdog) (now : Nat) : Watchdog :=
  if w.state = WdState.watching ∨ w.state = WdState.connecting then w
  else if ¬ w.configured then w
  else
    scheduleNextW
      (setStateW { w with stopped := false, currentIntervalMs := BASE_INTERVAL_MS }
        WdState.watching)
      now

/-- `stop` (reconnect-watchdog.ts lines 85-94): set `stopped`, clear the
referenced timer, clear the next-attempt time, transition to `stopped`. -/
def stopW (w : Watchdog) : Watchdog :=
  setStateW { (clearTimerW { w with stopped := true }) with nextAttemptAt := none }
    WdState.stopped

/-- `onConnected` (reconnect-watchdog.ts lines 100-111): clear the
referenced timer, reset attempts and backoff to the base, clear the
next-attempt time and the error, transition to `connected`. -/
def onConnectedW (w : Watchdog) : Watchdog :=
  setStateW
    { (clearTimerW w) with
      attempts := 0,
      currentIntervalMs := BASE_INTERVAL_MS, nextAttemptAt := none,
      lastError := none }
    WdState.connected

/-- `onDisconnected` (reconnect-watchdog.ts lines 117-125): only acts
when not stopped and the state is `connected` or `idle`; records the
reason, transitions to `watching`, schedules the next attempt. -/
def onDisconnectedW (w : Watchdog) (reason : Option String) (now : Nat) : Watchdog :=
  if w.stopped then w
  else if w.state = WdState.connected ∨ w.state = WdState.idle then
    scheduleNextW
      (setStateW { w with lastError := some (reason.getD "Conexão perdida") }
        WdState.watching)
      now
  else w

/-- The synchronous part of `_attempt` (reconnect-watchdog.ts lines
165-182), run when a scheduled timer fires: return when stopped or not
configured; when `isConnectedFn()` reports connected, `onConnected` and
return; otherwise count the attempt, record its time, clear the
next-attempt time, transition to `connecting`, emit `attempt`, and start
the awaited `reconnect()` call (one more in flight). -/
def attemptStartW (w : Watchdog) (now : Nat) (isConn : Bool) : Watchdog :=
  if w.stopped then w
  else if ¬ w.configured then w
  else if isConn then onConnectedW w
  else
    let w1 := { w with attempts := w.attempts + 1, lastAttemptAt := some now,
                       nextAttemptAt := none }
    let w2 := setStateW w1 WdState.connecting
    { w2 with emitted := w2.emitted ++ [WdEvent.attempt w1.attempts],
              inFlight := w2.inFlight + 1 }

/-- A scheduled timer fires: the handle must be live; it is consumed and
`_attempt` runs (the field `this.timer` keeps referencing the now dead
handle, as in the source, where `_attempt` never nulls it). -/
def timerFireW (w : Watchdog) (h now : Nat) (isConn : Bool) : Watchdog :=
  if h ∈ w.liveTimers then
    attemptStartW { w with liveTimers := w.liveTimers.erase h } now isConn
  else w

/-- `_onAttemptFailed` (reconnect-watchdog.ts lines 201-216): return when
stopped; record the error, emit `failed`, double the interval capped at
`MAX_INTERVAL_MS`, transition to `watching`, schedule the next attempt. -/
def onAttemptFailedW (w : Watchdog) (reason : String) (now : Nat) : Watchdog :=
  if w.stopped then w
  else
    scheduleNextW
      (setStateW
        { w with
          lastError := some reason,
          emitted := w.emitted ++ [WdEvent.failed w.attempts reason],
          currentIntervalMs :=
            min (w.currentIntervalMs * BACKOFF_MULTIPLIER) MAX_INTERVAL_MS }
        WdState.watching)
      now

/-- Completion of an in-flight `reconnect()` with `false` or a thrown
error (reconnect-watchdog.ts lines 192-198): the continuation runs
`_onAttemptFailed`. -/
def attemptFailW (w : Watchdog) (reason : String) (now : Nat) : Watchdog :=
  if w.inFlight = 0 then w
  else onAttemptFailedW { w with inFlight := w.inFlight - 1 } reason now

/-- Completion of an in-flight `reconnect()` with `true`
(reconnect-watchdog.ts lines 186-191): emit `reconnected`, run
`onConnected`, then `_setState("watching")`. -/
def attemptSucceedW (w : Watchdog) : Watchdog :=
  if w.inFlight = 0 then w
  else
    setStateW
      (onConnectedW
        { w with
          inFlight := w.inFlight - 1,
          emitted := w.emitted ++ [WdEvent.reconnected w.attempts] })
      WdState.watching

/-- The externally drivable events of a watchdog run: the public API
calls, a scheduled timer firing (with the value `isConnectedFn` returns
at that instant), and the completion of an in-flight reconnect call. -/
inductive WdCmd
  | configure
  | start (now : Nat)
  | stop
  | onConnected
  | onDisconnected (reason : Option String) (now : Nat)
  | timerFire (h now : Nat) (isConn : Bool)
  | attemptFail (reason : String) (now : Nat)
  | attemptSucceed
deriving DecidableEq

def stepW (w : Watchdog) : WdCmd → Watchdog
  | WdCmd.configure => configureW w
  | WdCmd.start now => startW w now
  | WdCmd.stop => stopW w
  | WdCmd.onConnected => onConnectedW w
  | WdCmd.onDisconnected r now => onDisconnectedW w r now
  | WdCmd.timerFire h now isConn => timerFireW w h now isConn
  | WdCmd.attemptFail r now => attemptFailW w r now
  | WdCmd.attemptSucceed => attemptSucceedW w

def runW (w : Watchdog) (cmds : List WdCmd) : Watchdog :=
  cmds.foldl stepW w

/-! ## Network scanner (src/server/network-scanner.ts) -/

/-- `getSubnetHosts` (network-scanner.ts lines 58-60):
`Array.from({ length: 254 }, (_, i) => subnet + "." + (i + 1))` — the 254
host addresses of the /24 subnet, suffixes 1 through 254.  A number in a
template literal renders in decimal, which for a natural number is
`Nat.repr`. -/
def getSubnetHosts (subnet : String) : List String :=
  (List.range 254).map (fun i => subnet ++ "." ++ Nat.repr (i + 1))

/-! ## Level conversions (matrix-client.ts lines 334-347)

The two static conversions compute with JavaScript floating point; they
are modelled over the reals, with `Math.log10(x)` as `Real.logb 10 x` and
`Math.pow(10, y)` as the real power `10 ^ y`. -/

/-- `levelToDb` (matrix-client.ts lines 335-340): `-60` at or below
level 0, `0` at or above level 1, `20 * log10(level)` in between.  A
static pure function: its value depends on its argument alone. -/
noncomputable def levelToDb (level : ℝ) : ℝ :=
  if level ≤ 0 then -60
  else if 1 ≤ level then 0
  else 20 * Real.logb 10 level

/-- `dbToLevel` (matrix-client.ts lines 343-347): `0` at or below
`-60` dB, `1` at or above `0` dB, `10 ^ (dB / 20)` in between.  A static
pure function: its value depends on its argument alone. -/
noncomputable def dbToLevel (dB : ℝ) : ℝ :=
  if dB ≤ -60 then 0
  else if 0 ≤ dB then 1
  else (10 : ℝ) ^ (dB / 20)

/-! ## Helper lemmas -/

theorem mem_dropWhile_of_not {α : Type} {p : α → Bool} {a : α} :
    ∀ {l : List α}, a ∈ l → p a = false → a ∈ l.dropWhile p := by
  intro l
  induction l with
  | nil => intro h; cases h
  | cons b t ih =>
    intro hmem hpa
    rw [List.dropWhile_cons]
    by_cases hpb : p b = true
    · rcases List.mem_cons.mp hmem with h | h
      · subst h; rw [hpa] at hpb; cases hpb
      · simp only [hpb, if_true]; exact ih h hpa
    · simp only [hpb, if_false]; exact hmem

theorem dropWhile_head_false {α : Type} {p : α → Bool} :
    ∀ {l : List α} {c : α} {cs : List α}, l.dropWhile p = c :: cs → p c = false := by
  intro l
  induction l with
  | nil => intro c cs h; cases h
  | cons b t ih =>
    intro c cs h
    rw [List.dropWhile_cons] at h
    by_cases hpb : p b = true
    · simp only [hpb, if_true] at h; exact ih h
    · simp only [hpb, if_false] at h
      cases h
      exact Bool.not_eq_true _ |>.mp hpb

theorem jsTrimList_ne_nil {cs : List Char} {c : Char} (hmem : c ∈ cs)
    (hc : jsWS c = false) : jsTrimList cs ≠ [] := by
  unfold jsTrimList
  intro hnil
  have h1 : c ∈ cs.reverse.dropWhile jsWS :=
    mem_dropWhile_of_not (List.mem_reverse.mpr hmem) hc
  have h2 : c ∈ (cs.reverse.dropWhile jsWS).reverse := List.mem_reverse.mpr h1
  have h3 : c ∈ ((cs.reverse.dropWhile jsWS).reverse).dropWhile jsWS :=
    mem_dropWhile_of_not h2 hc
  rw [hnil] at h3
  cases h3

theorem splitNL_ne_nil : ∀ cs : List Char, splitNL cs ≠ [] := by
  intro cs
  induction cs with
  | nil => simp [splitNL]
  | cons c rest ih =>
    rw [splitNL]
    rcases h : splitNL rest with _ | ⟨h1, t1⟩
    · exact absurd h ih
    · by_cases hc : c = '\n' <;> simp [hc]

theorem splitNL_cons_head {c : Char} (rest : List Char) (hc : ¬ c = '\n') :
    ∃ h t, splitNL (c :: rest) = (c :: h) :: t := by
  rw [splitNL]
  rcases hsp : splitNL rest with _ | ⟨h1, t1⟩
  · exact absurd hsp (splitNL_ne_nil rest)
  · exact ⟨h1, t1, by simp [hc]⟩

theorem jsTrim_mk_cons_ne_empty {c : Char} {h : List Char} (hc : jsWS c = false) :
    ¬ jsTrim (String.mk (c :: h)) = "" := by
  intro heq
  have : jsTrimList (c :: h) = [] := by
    have := congrArg String.data heq
    simpa [jsTrim] using this
  exact jsTrimList_ne_nil (List.mem_cons_self c h) hc this

/-- After `handleLine`, an accumulator with no pending entries keeps its
outcomes and stays without pending entries. -/
theorem handleLine_nil_pending (st : ClientState) (outs : List Outcome)
    (hp : st.pending = []) (l : String) :
    (handleLine (st, outs) l).1.pending = [] ∧ (handleLine (st, outs) l).2 = outs := by
  unfold handleLine
  by_cases h : jsTrim l = "" <;> simp [h, hp]

theorem foldl_handleLine_nil_pending {st : ClientState} {outs : List Outcome}
    (hp : st.pending = []) :
    ∀ lines : List String,
      (lines.foldl handleLine (st, outs)).1.pending = [] ∧
      (lines.foldl handleLine (st, outs)).2 = outs := by
  intro lines
  induction lines generalizing st outs with
  | nil => exact ⟨hp, rfl⟩
  | cons l rest ih =>
    rw [List.foldl_cons]
    obtain ⟨h1, h2⟩ := handleLine_nil_pending st outs hp l
    rcases hstep : handleLine (st, outs) l with ⟨st2, outs2⟩
    rw [hstep] at h1 h2
    simp only at h1 h2
    subst h2
    exact ih h1

/-- Any response data with a non-empty trim empties the pending map, and
every formerly pending command is resolved with one and the same line
(the first non-empty line of the data). -/
theorem handleResponse_first_line (st : ClientState) (data : String)
    (hne : ¬ jsTrim data = "") :
    ∃ l, (handleResponse st data).1.pending = [] ∧
      (handleResponse st data).2 =
        st.pending.map (fun e => Outcome.resolved e.id l) := by
  have hcs : jsTrimList data.data ≠ [] := by
    intro h0
    apply hne
    show String.mk (jsTrimList data.data) = ""
    rw [h0]
  rcases hcase : jsTrimList data.data with _ | ⟨c, rest⟩
  · exact absurd hcase hcs
  have hc : jsWS c = false := by
    have hdw : ((data.data.reverse.dropWhile jsWS).reverse).dropWhile jsWS
        = c :: rest := hcase
    exact dropWhile_head_false hdw
  have hcn : ¬ c = '\n' := by
    intro h
    subst h
    simp [jsWS] at hc
  obtain ⟨h1, t1, hsplit⟩ := splitNL_cons_head rest hcn
  refine ⟨jsTrim (String.mk (c :: h1)), ?_⟩
  have hlines : jsSplitLines (jsTrim data)
      = String.mk (c :: h1) :: t1.map String.mk := by
    show (splitNL (jsTrimList data.data)).map String.mk
        = String.mk (c :: h1) :: t1.map String.mk
    rw [hcase, hsplit]
    rfl
  have hstep1 : handleLine (st, []) (String.mk (c :: h1))
      = ({ st with pending := [] },
         st.pending.map (fun e =>
           Outcome.resolved e.id (jsTrim (String.mk (c :: h1))))) := by
    unfold handleLine
    simp [jsTrim_mk_cons_ne_empty hc]
  have hrun : handleResponse st data
      = (t1.map String.mk).foldl handleLine
          ({ st with pending := [] },
           st.pending.map (fun e =>
             Outcome.resolved e.id (jsTrim (String.mk (c :: h1))))) := by
    show (jsSplitLines (jsTrim data)).foldl handleLine (st, []) = _
    rw [hlines, List.foldl_cons, hstep1]
  rw [hrun]
  exact foldl_handleLine_nil_pending rfl (t1.map String.mk)

/-- The client state of the counterexample run: connected, not in
simulator mode, with two commands pending (ids 0 and 1, id 0 the
older). -/
def cexPendingSt : ClientState :=
  { config := DEFAULT_CONFIG, connected := true,
    pending := [⟨0, "GET GAIN IN 1", 2000⟩, ⟨1, "GET VU OUT 2", 2000⟩],
    simulatorVU := [], simulatorGains := [], simulatorMutes := [],
    simulatorSends := [], simulatorPreset := 1, emitted := [] }

/-- C1, counterexample.  The claim says an incoming response line is
matched to exactly the oldest pending command, the other pending
commands remaining pending.  With two commands pending, one incoming
line resolves BOTH of them (each with the same line) and leaves the
pending map empty; in particular the younger entry does not remain
pending. -/
theorem handleResponse_not_fifo_cex :
    (handleResponse cexPendingSt "GAIN IN 1 = -10.0").2 =
      [Outcome.resolved 0 "GAIN IN 1 = -10.0",
       Outcome.resolved 1 "GAIN IN 1 = -10.0"] ∧
    (handleResponse cexPendingSt "GAIN IN 1 = -10.0").1.pending = [] ∧
    ¬ (handleResponse cexPendingSt "GAIN IN 1 = -10.0").1.pending =
        [⟨1, "GET VU OUT 2", 2000⟩] := by
  refine ⟨by decide, by decide, by decide⟩

/-- C1, amended.  For every incoming response line whose trim is
non-empty, the Protocol Client resolves EVERY pending command with that
same trimmed line and clears the whole pending map (the oldest entry is
resolved first, in FIFO order, but the other pending commands do not
remain pending); with at most one command pending this coincides with
matching the oldest pending command.  Likewise `handleResponse` on any
data with a non-empty trim empties the pending map, all entries resolved
with one shared line. -/
theorem handleResponse_resolves_every_pending (st : ClientState)
    (outs : List Outcome) (line data : String)
    (hl : ¬ jsTrim line = "") (hd : ¬ jsTrim data = "") :
    (handleLine (st, outs) line).1.pending = [] ∧
    (handleLine (st, outs) line).2
      = outs ++ st.pending.map (fun e => Outcome.resolved e.id (jsTrim line)) ∧
    (handleResponse st data).1.pending = [] ∧
    ∃ l, (handleResponse st data).2
      = st.pending.map (fun e => Outcome.resolved e.id l) := by
  obtain ⟨l, hp, ho⟩ := handleResponse_first_line st data hd
  refine ⟨?_, ?_, hp, l, ho⟩ <;> unfold handleLine <;> simp [hl]

/-- Witness for the amended C1 theorem at a concrete state and line. -/
theorem handleResponse_resolves_every_pending_witness :
    (handleLine (cexPendingSt, []) "OK").1.pending = [] ∧
    (handleLine (cexPendingSt, []) "OK").2
      = [] ++ cexPendingSt.pending.map
          (fun e => Outcome.resolved e.id (jsTrim "OK")) ∧
    (handleResponse cexPendingSt "OK").1.pending = [] ∧
    ∃ l, (handleResponse cexPendingSt "OK").2
      = cexPendingSt.pending.map (fun e => Outcome.resolved e.id l) :=
  handleResponse_resolves_every_pending cexPendingSt [] "OK" "OK"
    (by decide) (by decide)

/-- C2.  In non-simulator mode, `sendRaw` on a connected client registers
exactly one pending entry whose timeout timer is armed for the configured
command timeout (and on a disconnected client rejects at once without
registering anything); when the timeout fires the operation fails with a
`Timeout: <command>` error and its entry is removed from the pending map;
when a response line arrives, every pending entry is likewise removed as
it resolves.  So a pending entry leaks in neither the success case nor
the timeout case. -/
theorem sendRaw_timeout_cleanup :
    (∀ (st : ClientState) (cmd : String) (id now : Nat),
      st.config.simulatorMode = false → st.connected = true →
      sendRawStart st cmd id now
        = ({ st with
              pending := st.pending ++ [⟨id, cmd, now + st.config.commandTimeout⟩] },
           none)) ∧
    (∀ (st : ClientState) (cmd : String) (id now : Nat),
      st.config.simulatorMode = false → st.connected = false →
      sendRawStart st cmd id now = (st, some "Não conectado ao mixer")) ∧
    (∀ (st : ClientState) (id : Nat) (e : PendingEntry),
      st.pending.find? (fun x => x.id = id) = some e →
      (timeoutFire st id).2 = [Outcome.rejected id ("Timeout: " ++ e.cmd)] ∧
      ∀ e2 ∈ (timeoutFire st id).1.pending, ¬ e2.id = id) ∧
    (∀ (st : ClientState) (data : String), ¬ jsTrim data = "" →
      (handleResponse st data).1.pending = [] ∧
      ∀ e ∈ st.pending, ∃ l,
        Outcome.resolved e.id l ∈ (handleResponse st data).2) := by
  refine ⟨?_, ?_, ?_, ?_⟩
  · intro st cmd id now h1 h2
    unfold sendRawStart
    rw [h1, h2]
    simp
  · intro st cmd id now h1 h2
    unfold sendRawStart
    rw [h1, h2]
    simp
  · intro st id e hfind
    unfold timeoutFire
    rw [hfind]
    refine ⟨rfl, ?_⟩
    intro e2 hmem
    have := List.of_mem_filter hmem
    simpa using this
  · intro st data hne
    obtain ⟨l, hp, ho⟩ := handleResponse_first_line st data hne
    refine ⟨hp, ?_⟩
    intro e he
    exact ⟨l, by rw [ho]; exact List.mem_map_of_mem _ he⟩

/-- Witness for C2 at a concrete state: the pending entry is created with
the configured deadline, and the timeout rejection names the command. -/
theorem sendRaw_timeout_cleanup_witness :
    sendRawStart cexPendingSt "GET PRESET" 7 100
      = ({ cexPendingSt with
            pending := cexPendingSt.pending ++
              [⟨7, "GET PRESET", 100 + cexPendingSt.config.commandTimeout⟩] },
         none) ∧
    (timeoutFire cexPendingSt 0).2
      = [Outcome.rejected 0 ("Timeout: " ++ "GET GAIN IN 1")] :=
  ⟨sendRaw_timeout_cleanup.1 cexPendingSt "GET PRESET" 7 100 rfl rfl,
   (sendRaw_timeout_cleanup.2.2.1 cexPendingSt 0 ⟨0, "GET GAIN IN 1", 2000⟩
     (by decide)).1⟩

/-! ## Watchdog lemmas and theorems -/

theorem setStateW_state (w : Watchdog) (s : WdState) : (setStateW w s).state = s := rfl

theorem setStateW_interval (w : Watchdog) (s : WdState) :
    (setStateW w s).currentIntervalMs = w.currentIntervalMs := rfl

theorem clearTimerW_interval (w : Watchdog) :
    (clearTimerW w).currentIntervalMs = w.currentIntervalMs := by
  cases hw : w.timerField <;> simp [clearTimerW, hw]

theorem clearTimerW_state (w : Watchdog) : (clearTimerW w).state = w.state := by
  cases hw : w.timerField <;> simp [clearTimerW, hw]

theorem clearTimerW_emitted (w : Watchdog) : (clearTimerW w).emitted = w.emitted := by
  cases hw : w.timerField <;> simp [clearTimerW, hw]

theorem scheduleNextW_interval (w : Watchdog) (now : Nat) :
    (scheduleNextW w now).currentIntervalMs = w.currentIntervalMs := by
  by_cases hw : w.stopped = true <;> simp [scheduleNextW, hw]

theorem onConnectedW_interval (w : Watchdog) :
    (onConnectedW w).currentIntervalMs = BASE_INTERVAL_MS := rfl

theorem startW_interval (w : Watchdog) (now : Nat) :
    (startW w now).currentIntervalMs = w.currentIntervalMs ∨
    (startW w now).currentIntervalMs = BASE_INTERVAL_MS := by
  unfold startW
  split_ifs <;>
    first
      | exact Or.inl rfl
      | (right; rw [scheduleNextW_interval, setStateW_interval])

theorem stopW_interval (w : Watchdog) :
    (stopW w).currentIntervalMs = w.currentIntervalMs := by
  unfold stopW
  rw [setStateW_interval]
  show (clearTimerW { w with stopped := true }).currentIntervalMs
    = w.currentIntervalMs
  rw [clearTimerW_interval]

theorem onDisconnectedW_interval (w : Watchdog) (r : Option String) (now : Nat) :
    (onDisconnectedW w r now).currentIntervalMs = w.currentIntervalMs := by
  unfold onDisconnectedW
  split_ifs <;> simp [scheduleNextW_interval, setStateW_interval]

theorem attemptStartW_interval (w : Watchdog) (now : Nat) (isConn : Bool) :
    (attemptStartW w now isConn).currentIntervalMs = w.currentIntervalMs ∨
    (attemptStartW w now isConn).currentIntervalMs = BASE_INTERVAL_MS := by
  unfold attemptStartW
  split_ifs <;>
    first
      | exact Or.inl rfl
      | exact Or.inr (onConnectedW_interval _)

theorem timerFireW_interval (w : Watchdog) (h now : Nat) (isConn : Bool) :
    (timerFireW w h now isConn).currentIntervalMs = w.currentIntervalMs ∨
    (timerFireW w h now isConn).currentIntervalMs = BASE_INTERVAL_MS := by
  unfold timerFireW
  split_ifs <;>
    first
      | exact Or.inl rfl
      | exact attemptStartW_interval _ now isConn

theorem attemptSucceedW_interval (w : Watchdog) :
    (attemptSucceedW w).currentIntervalMs = w.currentIntervalMs ∨
    (attemptSucceedW w).currentIntervalMs = BASE_INTERVAL_MS := by
  unfold attemptSucceedW
  split_ifs <;>
    first
      | exact Or.inl rfl
      | (right; rw [setStateW_interval]; exact onConnectedW_interval _)

theorem attemptFailW_interval (w : Watchdog) (r : String) (now : Nat) :
    (attemptFailW w r now).currentIntervalMs = w.currentIntervalMs ∨
    (attemptFailW w r now).currentIntervalMs
      = min (w.currentIntervalMs * 2) MAX_INTERVAL_MS := by
  unfold attemptFailW onAttemptFailedW
  split_ifs <;>
    first
      | exact Or.inl rfl
      | (right; rw [scheduleNextW_interval, setStateW_interval]; rfl)

/-- The backoff interval stays within `[30000, 300000]` across every
event. -/
theorem stepW_interval_bounds {w : Watchdog}
    (hlo : 30000 ≤ w.currentIntervalMs)
    (hhi : w.currentIntervalMs ≤ 300000) (c : WdCmd) :
    30000 ≤ (stepW w c).currentIntervalMs ∧
    (stepW w c).currentIntervalMs ≤ 300000 := by
  have hBase : ∀ n : Nat, n = BASE_INTERVAL_MS → 30000 ≤ n ∧ n ≤ 300000 := by
    intro n h
    subst h
    exact ⟨le_refl _, by decide⟩
  cases c with
  | configure => exact ⟨hlo, hhi⟩
  | start now =>
    rcases startW_interval w now with h | h <;> rw [stepW, h]
    · exact ⟨hlo, hhi⟩
    · exact hBase _ rfl
  | stop =>
    rw [stepW, stopW_interval]
    exact ⟨hlo, hhi⟩
  | onConnected =>
    rw [stepW, onConnectedW_interval]
    exact hBase _ rfl
  | onDisconnected r now =>
    rw [stepW, onDisconnectedW_interval]
    exact ⟨hlo, hhi⟩
  | timerFire h now isConn =>
    rcases timerFireW_interval w h now isConn with he | he <;> rw [stepW, he]
    · exact ⟨hlo, hhi⟩
    · exact hBase _ rfl
  | attemptFail r now =>
    rcases attemptFailW_interval w r now with he | he <;> rw [stepW, he]
    · exact ⟨hlo, hhi⟩
    · constructor
      · exact le_min (by omega) (by decide)
      · exact min_le_right _ _
  | attemptSucceed =>
    rcases attemptSucceedW_interval w with he | he <;> rw [stepW, he]
    · exact ⟨hlo, hhi⟩
    · exact hBase _ rfl

theorem runW_interval_bounds :
    ∀ (cmds : List WdCmd) (w : Watchdog),
      30000 ≤ w.currentIntervalMs →
      w.currentIntervalMs ≤ 300000 →
      30000 ≤ (runW w cmds).currentIntervalMs ∧
      (runW w cmds).currentIntervalMs ≤ 300000 := by
  intro cmds
  induction cmds with
  | nil => intro w h1 h2; exact ⟨h1, h2⟩
  | cons c rest ih =>
    intro w h1 h2
    obtain ⟨h3, h4⟩ := stepW_interval_bounds h1 h2 c
    exact ih (stepW w c) h3 h4

/-- Trace: configure, start, one failed attempt. -/
def wdFailOnce : List WdCmd :=
  [WdCmd.configure, WdCmd.start 0, WdCmd.timerFire 0 30000 false,
   WdCmd.attemptFail "falha" 30000]

/-- Trace: configure, start, two consecutive failed attempts. -/
def wdFailTwice : List WdCmd :=
  wdFailOnce ++ [WdCmd.timerFire 1 90000 false, WdCmd.attemptFail "falha" 90000]

/-- Trace: configure, start, six consecutive failed attempts
(30 → 60 → 120 → 240 → 300 capped, then capped again). -/
def wdFailCap : List WdCmd :=
  wdFailTwice ++
  [WdCmd.timerFire 2 0 false, WdCmd.attemptFail "falha" 0,
   WdCmd.timerFire 3 0 false, WdCmd.attemptFail "falha" 0,
   WdCmd.timerFire 4 0 false, WdCmd.attemptFail "falha" 0,
   WdCmd.timerFire 5 0 false, WdCmd.attemptFail "falha" 0]

/-- C3.  The backoff interval starts at 30000 ms; every failed reconnect
attempt sets it to `min (2 · interval) 300000` (so it doubles while the
double is within the cap and never exceeds 300000); `onConnected` resets
it to 30000 from any value; a failed attempt never brings it back to the
base (from any reachable interval it lands at 60000 or above); along
every event sequence from the initial state it stays within
`[30000, 300000]`; and concretely, one failure yields 60000, two
consecutive failures 120000, and six consecutive failures pin it at
exactly 300000, where a further failure keeps it at 300000. -/
theorem watchdog_backoff_policy :
    BASE_INTERVAL_MS = 30000 ∧ MAX_INTERVAL_MS = 300000 ∧
    initW.currentIntervalMs = 30000 ∧
    (∀ (w : Watchdog) (r : String) (now : Nat),
      w.stopped = false → 0 < w.inFlight →
      (attemptFailW w r now).currentIntervalMs
        = min (w.currentIntervalMs * 2) 300000) ∧
    (∀ (w : Watchdog) (r : String) (now : Nat),
      w.stopped = false → 0 < w.inFlight → w.currentIntervalMs * 2 ≤ 300000 →
      (attemptFailW w r now).currentIntervalMs = w.currentIntervalMs * 2) ∧
    (∀ w : Watchdog, (onConnectedW w).currentIntervalMs = 30000) ∧
    (∀ (w : Watchdog) (r : String) (now : Nat),
      w.stopped = false → 0 < w.inFlight → 30000 ≤ w.currentIntervalMs →
      60000 ≤ (attemptFailW w r now).currentIntervalMs) ∧
    (∀ cmds : List WdCmd,
      30000 ≤ (runW initW cmds).currentIntervalMs ∧
      (runW initW cmds).currentIntervalMs ≤ 300000) ∧
    (runW initW wdFailOnce).currentIntervalMs = 60000 ∧
    (runW initW wdFailTwice).currentIntervalMs = 120000 ∧
    (runW initW wdFailCap).currentIntervalMs = 300000 ∧
    (runW initW (wdFailCap ++ [WdCmd.timerFire 6 0 false,
      WdCmd.attemptFail "falha" 0])).currentIntervalMs = 300000 := by
  have hfail : ∀ (w : Watchdog) (r : String) (now : Nat),
      w.stopped = false → 0 < w.inFlight →
      (attemptFailW w r now).currentIntervalMs
        = min (w.currentIntervalMs * 2) 300000 := by
    intro w r now hs hf
    have hf0 : ¬ w.inFlight = 0 := Nat.pos_iff_ne_zero.mp hf
    simp only [attemptFailW, hf0, if_false, onAttemptFailedW]
    rw [if_neg (by simp [hs])]
    rw [scheduleNextW_interval, setStateW_interval]
    rfl
  refine ⟨rfl, rfl, rfl, hfail, ?_, fun w => rfl, ?_, ?_, ?_, ?_, ?_, ?_⟩
  · intro w r now hs hf hle
    rw [hfail w r now hs hf]
    exact min_eq_left hle
  · intro w r now hs hf hge
    rw [hfail w r now hs hf]
    exact le_min (by omega) (by decide)
  · intro cmds
    exact runW_interval_bounds cmds initW (le_refl _) (by decide)
  · decide
  · decide
  · decide
  · decide

/-- The event trace of the C4 failing input: start, the scheduled timer
fires and a reconnect attempt goes in flight, the connection comes back
externally (`onConnected`) and drops again (`onDisconnected`, which
schedules timer 1), and only then the in-flight attempt fails —
scheduling timer 2 while timer 1 is still scheduled. -/
def wdStaleTrace : List WdCmd :=
  [WdCmd.configure, WdCmd.start 0, WdCmd.timerFire 0 30000 false,
   WdCmd.onConnected, WdCmd.onDisconnected (some "cabo desconectado") 31000,
   WdCmd.attemptFail "conexão recusada" 32000]

/-- C4.  Evaluation of the watchdog on the failing input `wdStaleTrace`:
the run ends in the ordinary `watching` state with TWO live scheduled
retry timers (handles 1 and 2), because `_onAttemptFailed` of the stale
in-flight attempt passes its `stopped` guard and schedules a second
timer, overwriting `this.timer` while the first stays scheduled.  This
contradicts the claimed invariant that at most one scheduled retry timer
exists in every reachable state.  (The other half of the claim does hold:
`start()` while `watching` or `connecting` is a no-op, last conjunct.) -/
theorem watchdog_second_timer_reachable :
    (runW initW wdStaleTrace).liveTimers = [1, 2] ∧
    (runW initW wdStaleTrace).state = WdState.watching ∧
    (∀ (w : Watchdog) (now : Nat),
      w.state = WdState.watching ∨ w.state = WdState.connecting →
      startW w now = w) := by
  refine ⟨by decide, by decide, ?_⟩
  intro w now h
  unfold startW
  rw [if_pos]
  rcases h with h | h <;> simp [h]

/-- Count of `stateChange` events in an emission log. -/
def countSC (evs : List WdEvent) : Nat :=
  evs.countP (fun e => match e with
    | WdEvent.stateChange _ _ => true
    | _ => false)

/-- `n` consecutive calls of `stop()`. -/
def stopIter : Nat → Watchdog → Watchdog
  | 0, w => w
  | n + 1, w => stopIter n (stopW w)

theorem stopW_state (w : Watchdog) : (stopW w).state = WdState.stopped := rfl

theorem stopW_nextAttemptAt (w : Watchdog) : (stopW w).nextAttemptAt = none := rfl

theorem stopW_timerField (w : Watchdog) : (stopW w).timerField = none := by
  cases hw : w.timerField <;> simp [stopW, setStateW, clearTimerW, hw]

theorem stopW_emitted_of_stopped {w : Watchdog} (h : w.state = WdState.stopped) :
    (stopW w).emitted = w.emitted := by
  unfold stopW setStateW
  rw [clearTimerW_state]
  simp [h, clearTimerW_emitted]

theorem stopW_emitted_of_not_stopped {w : Watchdog}
    (h : ¬ w.state = WdState.stopped) :
    (stopW w).emitted
      = w.emitted ++ [WdEvent.stateChange WdState.stopped w.state] := by
  unfold stopW setStateW
  rw [clearTimerW_state]
  simp [h, clearTimerW_emitted]

theorem stopIter_emitted_of_stopped :
    ∀ (n : Nat) {w : Watchdog}, w.state = WdState.stopped →
      (stopIter n w).emitted = w.emitted := by
  intro n
  induction n with
  | zero => intro w _; rfl
  | succ m ih =>
    intro w h
    show (stopIter m (stopW w)).emitted = w.emitted
    rw [ih (stopW_state w), stopW_emitted_of_stopped h]

/-- C5.  A `stateChange` event fires exactly when a transition actually
changes the state (first conjunct, as an iff on the emission log);
`stop()` from any state yields `stopped`, clears the next-attempt time
and the timer field, and cancels the tracked pending timer (when the
live timer, if any, is the tracked one, none is left); and any run of
`n + 1` consecutive `stop()` calls from a non-stopped state emits exactly
one `stateChange` event in total. -/
theorem watchdog_stop_idempotent :
    (∀ (w : Watchdog) (s : WdState),
      ((setStateW w s).emitted = w.emitted ↔ w.state = s)) ∧
    (∀ w : Watchdog, (stopW w).state = WdState.stopped ∧
      (stopW w).nextAttemptAt = none ∧ (stopW w).timerField = none) ∧
    (∀ w : Watchdog,
      (w.liveTimers = [] ∨ ∃ h, w.timerField = some h ∧ w.liveTimers = [h]) →
      (stopW w).liveTimers = []) ∧
    (∀ (w : Watchdog) (n : Nat), ¬ w.state = WdState.stopped →
      countSC ((stopIter (n + 1) w).emitted) = countSC w.emitted + 1) := by
  refine ⟨?_, fun w => ⟨rfl, rfl, stopW_timerField w⟩, ?_, ?_⟩
  · intro w s
    unfold setStateW
    by_cases h : w.state = s <;> simp [h]
  · intro w h
    rcases h with h | ⟨h, hf, hl⟩
    · cases hw : w.timerField <;>
        simp [stopW, setStateW, clearTimerW, hw, h]
    · simp [stopW, setStateW, clearTimerW, hf, hl]
  · intro w n h
    show countSC ((stopIter n (stopW w)).emitted) = countSC w.emitted + 1
    rw [stopIter_emitted_of_stopped n (stopW_state w),
      stopW_emitted_of_not_stopped h]
    simp [countSC]

/-! ## Rational rounding and map lemmas -/

theorem roundQ_mono {x y : ℚ} (h : x ≤ y) : round x ≤ round y := by
  rw [round_eq, round_eq]
  exact Int.floor_mono (by linarith)

theorem toFixed1_le_of_le {q b : ℚ} {z : ℤ} (hb : b * 10 = (z : ℚ))
    (h : q ≤ b) : toFixed1 q ≤ b := by
  unfold toFixed1
  have h1 : round (q * 10) ≤ z := by
    have h2 := roundQ_mono (mul_le_mul_of_nonneg_right h (by norm_num : (0:ℚ) ≤ 10))
    rwa [hb, round_intCast] at h2
  have h3 : ((round (q * 10) : ℤ) : ℚ) ≤ b * 10 := by
    rw [hb]
    exact_mod_cast h1
  linarith

theorem le_toFixed1_of_le {q b : ℚ} {z : ℤ} (hb : b * 10 = (z : ℚ))
    (h : b ≤ q) : b ≤ toFixed1 q := by
  unfold toFixed1
  have h1 : z ≤ round (q * 10) := by
    have h2 := roundQ_mono (mul_le_mul_of_nonneg_right h (by norm_num : (0:ℚ) ≤ 10))
    rwa [hb, round_intCast] at h2
  have h3 : b * 10 ≤ ((round (q * 10) : ℤ) : ℚ) := by
    rw [hb]
    exact_mod_cast h1
  linarith

theorem toFixed1_idem (q : ℚ) : toFixed1 (toFixed1 q) = toFixed1 q := by
  unfold toFixed1
  rw [div_mul_cancel₀ _ (by norm_num : (10 : ℚ) ≠ 0), round_intCast]

theorem find?_mapSet_overwrite {κ α : Type} [DecidableEq κ] (k : κ) (v : α) :
    ∀ t : List (κ × α),
      (t.map (fun kv => if kv.1 = k then (k, v) else kv)).find?
          (fun kv => kv.1 = k)
        = if t.any (fun kv => kv.1 = k) then some (k, v) else none := by
  intro t
  induction t with
  | nil => simp
  | cons a t ih =>
    by_cases h : a.1 = k
    · simp [h, List.any_cons, List.find?_cons, ih]
    · rw [List.map_cons, if_neg h, List.find?_cons_of_neg _ (by simpa using h),
        ih, List.any_cons, decide_eq_false h, Bool.false_or]

theorem find?_append_single {κ α : Type} [DecidableEq κ] (k : κ) (v : α) :
    ∀ t : List (κ × α), (∀ kv ∈ t, ¬ kv.1 = k) →
      ((t ++ [(k, v)]).find? (fun kv => kv.1 = k)) = some (k, v) := by
  intro t
  induction t with
  | nil => simp [List.find?]
  | cons a t ih =>
    intro hall
    have ha : ¬ a.1 = k := hall a (List.mem_cons_self a t)
    rw [List.cons_append, List.find?_cons_of_neg _ (by simpa using ha)]
    exact ih (fun kv hkv => hall kv (List.mem_cons_of_mem a hkv))

theorem mapGet_mapSet {κ α : Type} [DecidableEq κ] (m : List (κ × α))
    (k : κ) (v : α) : mapGet (mapSet m k v) k = some v := by
  unfold mapSet mapGet
  by_cases hany : (m.any fun kv => kv.1 = k) = true
  · rw [if_pos hany, find?_mapSet_overwrite, if_pos hany]
    rfl
  · rw [if_neg hany, find?_append_single k v m ?hall]
    · rfl
    · intro kv hkv hk
      exact hany (List.any_eq_true.mpr ⟨kv, hkv, by simpa using hk⟩)

theorem mapGet_mem {κ α : Type} [DecidableEq κ] {m : List (κ × α)} {k : κ}
    {v : α} (h : mapGet m k = some v) : ∃ kv ∈ m, kv.2 = v := by
  unfold mapGet at h
  cases hf : m.find? (fun kv => kv.1 = k) with
  | none => rw [hf] at h; cases h
  | some kv =>
    rw [hf] at h
    refine ⟨kv, List.mem_of_find?_eq_some hf, ?_⟩
    simpa using h

theorem toFixed1_neg40 : toFixed1 (-40 : ℚ) = -40 := by
  unfold toFixed1
  rw [show ((-40 : ℚ) * 10) = ((-400 : ℤ) : ℚ) by norm_num, round_intCast]
  norm_num

/-- C7.  `setGain` and `setSend` clamp the dB argument to `[-60, 10]`
before transmission: the clamp is always within the interval, `100` maps
to `10` and `-100` to `-60`; in simulator mode a set followed by a get
reads back exactly the clamped (decimal-rounded) value, which lies in
`[-60, 10]` — in particular `100` stores/reads `10 ≤ 10` and `-100`
stores/reads `-60 ≥ -60`; and `getGain` parses the numeric suffix of the
response, returning `-60` when the response has no numeric suffix. -/
theorem gain_clamp_and_parse :
    (∀ dB : ℚ, -60 ≤ clampDb dB ∧ clampDb dB ≤ 10) ∧
    clampDb 100 = 10 ∧ clampDb (-100) = -60 ∧
    (∀ (st : ClientState) (c : ChannelClass) (n : Nat) (dB : ℚ),
      getGainSim (setGainSim st c n dB) c n = toFixed1 (clampDb dB) ∧
      -60 ≤ getGainSim (setGainSim st c n dB) c n ∧
      getGainSim (setGainSim st c n dB) c n ≤ 10) ∧
    (∀ (st : ClientState) (c : ChannelClass) (n : Nat),
      getGainSim (setGainSim st c n 100) c n = 10 ∧
      getGainSim (setGainSim st c n (-100)) c n = -60) ∧
    (∀ (st : ClientState) (c : ChannelClass) (n bus : Nat) (dB : ℚ),
      getSendSim (setSendSim st c n bus dB) c n bus = toFixed1 (clampDb dB) ∧
      -60 ≤ getSendSim (setSendSim st c n bus dB) c n bus ∧
      getSendSim (setSendSim st c n bus dB) c n bus ≤ 10) ∧
    (∀ s : String, numSuffix s = none → parseDbOrFloor s = some (-60)) ∧
    (∀ s tok : String, numSuffix s = some tok →
      parseDbOrFloor s = parseFloatQ tok) := by
  have hclamp : ∀ dB : ℚ, -60 ≤ clampDb dB ∧ clampDb dB ≤ 10 := by
    intro dB
    exact ⟨le_max_left _ _, max_le (by norm_num) (min_le_left _ _)⟩
  have hround : ∀ dB : ℚ, -60 ≤ toFixed1 (clampDb dB) ∧ toFixed1 (clampDb dB) ≤ 10 := by
    intro dB
    exact ⟨le_toFixed1_of_le (z := -600) (by norm_num) (hclamp dB).1,
           toFixed1_le_of_le (z := 100) (by norm_num) (hclamp dB).2⟩
  have hgain : ∀ (st : ClientState) (c : ChannelClass) (n : Nat) (dB : ℚ),
      getGainSim (setGainSim st c n dB) c n = toFixed1 (clampDb dB) := by
    intro st c n dB
    unfold getGainSim setGainSim
    rw [mapGet_mapSet]
    exact toFixed1_idem _
  have hsend : ∀ (st : ClientState) (c : ChannelClass) (n bus : Nat) (dB : ℚ),
      getSendSim (setSendSim st c n bus dB) c n bus = toFixed1 (clampDb dB) := by
    intro st c n bus dB
    unfold getSendSim setSendSim
    rw [mapGet_mapSet]
    exact toFixed1_idem _
  refine ⟨hclamp, by with_unfolding_all rfl, by with_unfolding_all rfl,
    ?_, ?_, ?_, ?_, ?_⟩
  · intro st c n dB
    refine ⟨hgain st c n dB, ?_, ?_⟩
    · rw [hgain st c n dB]; exact (hround dB).1
    · rw [hgain st c n dB]; exact (hround dB).2
  · intro st c n
    constructor
    · rw [hgain st c n 100]; with_unfolding_all rfl
    · rw [hgain st c n (-100)]; with_unfolding_all rfl
  · intro st c n bus dB
    refine ⟨hsend st c n bus dB, ?_, ?_⟩
    · rw [hsend st c n bus dB]; exact (hround dB).1
    · rw [hsend st c n bus dB]; exact (hround dB).2
  · intro s hnone
    unfold parseDbOrFloor
    rw [hnone]
  · intro s tok hsome
    unfold parseDbOrFloor
    rw [hsome]

/-- C8, counterexample.  In hardware (non-simulator) mode `getVU`
returns the parsed numeric suffix of whatever line the device sent,
without clamping: the response `"VU IN 1 = 5.0"` parses to `5`, which
does not lie in `[-60, 0]`. -/
theorem getVU_unclamped_hardware_cex :
    parseDbOrFloor "VU IN 1 = 5.0" = some 5 ∧
    ¬ ((-60 : ℚ) ≤ 5 ∧ (5 : ℚ) ≤ 0) := by
  constructor
  · with_unfolding_all rfl
  · intro h
    exact absurd h.2 (by norm_num)

/-- C8, amended.  The `[-60, 0]` range of `getVU` holds in simulator mode
and for the unparseable-response default, not in hardware mode (where the
parsed device value is returned unclamped, see the counterexample): the
random-walk tick keeps every stored VU value in `[-60, 0]` whatever the
random steps are, the seeded values of a fresh simulator client are in
`[-60, 0]` for any `Math.random()` values in `[0, 1)`, a `getVU` read on
any simulator state within bounds (including the `-40` default for an
unseeded channel) returns a value in `[-60, 0]`, and a response without a
numeric suffix parses to the in-range floor `-60`. -/
theorem getVU_range_simulator :
    (∀ (st : ClientState) (delta : ChannelClass × Nat → ℚ),
      VUBounds st → VUBounds (simTick st delta)) ∧
    (∀ (p : ConfigPatch) (rand : Nat → ℚ),
      (∀ i, 0 ≤ rand i ∧ rand i < 1) → VUBounds (constructMC p rand)) ∧
    (∀ (st : ClientState) (c : ChannelClass) (n : Nat), VUBounds st →
      -60 ≤ getVUSim st c n ∧ getVUSim st c n ≤ 0) ∧
    (∀ s : String, numSuffix s = none →
      parseDbOrFloor s = some (-60) ∧ (-60 : ℚ) ≤ -60 ∧ (-60 : ℚ) ≤ 0) := by
  refine ⟨?_, ?_, ?_, ?_⟩
  · intro st delta hb kv hkv
    unfold simTick at hkv
    simp only [List.mem_map] at hkv
    obtain ⟨kv0, _, rfl⟩ := hkv
    exact ⟨le_max_left _ _, max_le (by norm_num) (min_le_left _ _)⟩
  · intro p rand hr kv hkv
    unfold constructMC at hkv
    split at hkv
    case isTrue =>
      unfold initSimulator at hkv
      simp only [List.mem_append, List.mem_map, List.mem_range] at hkv
      rcases hkv with ⟨i, _, rfl⟩ | ⟨i, _, rfl⟩
      · have h1 := (hr i).1
        have h2 := (hr i).2
        constructor
        · show (-60 : ℚ) ≤ -20 - rand i * 20
          nlinarith
        · show (-20 : ℚ) - rand i * 20 ≤ 0
          nlinarith
      · have h1 := (hr (20 + i)).1
        have h2 := (hr (20 + i)).2
        constructor
        · show (-60 : ℚ) ≤ -15 - rand (20 + i) * 15
          nlinarith
        · show (-15 : ℚ) - rand (20 + i) * 15 ≤ 0
          nlinarith
    case isFalse => cases hkv
  · intro st c n hb
    unfold getVUSim
    cases hget : mapGet st.simulatorVU (c, n) with
    | none =>
      rw [Option.getD_none, toFixed1_neg40]
      norm_num
    | some q =>
      rw [Option.getD_some]
      obtain ⟨kv, hmem, hv⟩ := mapGet_mem hget
      obtain ⟨hl, hh⟩ := hb kv hmem
      rw [hv] at hl hh
      exact ⟨le_toFixed1_of_le (z := -600) (by norm_num) hl,
             toFixed1_le_of_le (z := 0) (by norm_num) hh⟩
  · intro s hnone
    refine ⟨?_, le_refl _, by norm_num⟩
    unfold parseDbOrFloor
    rw [hnone]

/-- C9.  `getSubnetHosts` returns exactly 254 host strings; the `i`-th
entry (0-based index `i`, 1-based position `i + 1`) is the prefix
followed by a dot and the decimal suffix `i + 1`, so the suffixes run
from 1 to 254; concretely for the prefix `"10.0.0"` the first entry is
`"10.0.0.1"`, the last is `"10.0.0.254"`, and neither the network
address `"10.0.0.0"` nor the broadcast address `"10.0.0.255"` occurs. -/
theorem subnet_hosts_enumeration :
    (∀ s : String, (getSubnetHosts s).length = 254) ∧
    (∀ (s : String) (i : Nat), i < 254 →
      (getSubnetHosts s)[i]? = some (s ++ "." ++ Nat.repr (i + 1))) ∧
    (getSubnetHosts "10.0.0")[0]? = some "10.0.0.1" ∧
    (getSubnetHosts "10.0.0").getLast? = some "10.0.0.254" ∧
    (getSubnetHosts "10.0.0").contains "10.0.0.0" = false ∧
    (getSubnetHosts "10.0.0").contains "10.0.0.255" = false := by
  refine ⟨?_, ?_, by decide, by decide, by decide, by decide⟩
  · intro s
    simp [getSubnetHosts]
  · intro s i hi
    simp [getSubnetHosts, List.getElem?_map, List.getElem?_range, hi]

/-- C10.  A `MatrixClient` whose merged configuration has
`simulatorMode = true` is connected the moment the constructor returns:
the constructor itself runs `initSimulator`, so before `connect()` is
ever called `connected` is `true`, `isConnected()` reports `true`, and
the `connected` event has been emitted (it is the whole emission log of
the fresh instance). -/
theorem simulator_connected_at_construction (p : ConfigPatch) (rand : Nat → ℚ)
    (hsim : (mergeConfig DEFAULT_CONFIG p).simulatorMode = true) :
    (constructMC p rand).connected = true ∧
    isConnected (constructMC p rand) = true ∧
    (constructMC p rand).emitted = [ClientEvent.connected] := by
  unfold constructMC isConnected
  rw [if_pos hsim]
  exact ⟨rfl, rfl, rfl⟩

/-- Witness for C10 at the concrete configuration
`{ simulatorMode: true }` (and an arbitrary concrete random oracle). -/
theorem simulator_connected_at_construction_witness :
    (constructMC { simulatorMode := some true } (fun _ => 0)).connected = true ∧
    isConnected (constructMC { simulatorMode := some true } (fun _ => 0)) = true ∧
    (constructMC { simulatorMode := some true } (fun _ => 0)).emitted
      = [ClientEvent.connected] :=
  simulator_connected_at_construction { simulatorMode := some true }
    (fun _ => 0) rfl

/-! ## Level conversion theorems (C6) -/

theorem rpow_neg_three : (10 : ℝ) ^ (-3 : ℝ) = 1 / 1000 := by
  rw [Real.rpow_neg (by norm_num : (0:ℝ) ≤ 10),
    show ((3:ℝ)) = ((3:ℕ):ℝ) by norm_num, Real.rpow_natCast]
  norm_num

/-- C6.  `levelToDb` and `dbToLevel` are pure functions of their argument
with `levelToDb 0 = -60`, `levelToDb 1 = 0`, `dbToLevel (-60) = 0`,
`dbToLevel 0 = 1`; strictly between the boundaries they compute
`20 · log10 level` and `10 ^ (dB / 20)`; they are mutually inverse over
the clamped domains: `levelToDb (dbToLevel d) = d` exactly for every
`d ∈ [-60, 0]`, `dbToLevel (levelToDb x) = x` exactly for every
`x ∈ {0} ∪ (10⁻³, 1]`, and `dbToLevel (levelToDb x) ≈ x` for every
`x ∈ [0, 1]` (absolute error at most `10⁻³`, the level whose dB value
hits the `-60` clamp). -/
theorem level_db_conversion_inverse :
    levelToDb 0 = -60 ∧ levelToDb 1 = 0 ∧
    dbToLevel (-60) = 0 ∧ dbToLevel 0 = 1 ∧
    (∀ x : ℝ, 0 < x → x < 1 → levelToDb x = 20 * Real.logb 10 x) ∧
    (∀ d : ℝ, -60 < d → d < 0 → dbToLevel d = (10 : ℝ) ^ (d / 20)) ∧
    (∀ d : ℝ, -60 ≤ d → d ≤ 0 → levelToDb (dbToLevel d) = d) ∧
    (∀ x : ℝ, 1 / 1000 < x → x ≤ 1 → dbToLevel (levelToDb x) = x) ∧
    (∀ x : ℝ, 0 ≤ x → x ≤ 1 → |dbToLevel (levelToDb x) - x| ≤ 1 / 1000) := by
  have h10 : (1 : ℝ) < 10 := by norm_num
  have hpos : (0 : ℝ) < 10 := by norm_num
  have hne : (10 : ℝ) ≠ 1 := by norm_num
  have hl0 : levelToDb 0 = -60 := by simp [levelToDb]
  have hl1 : levelToDb 1 = 0 := by norm_num [levelToDb]
  have hd60 : dbToLevel (-60) = 0 := by simp [dbToLevel]
  have hd0 : dbToLevel 0 = 1 := by norm_num [dbToLevel]
  have hlmid : ∀ x : ℝ, 0 < x → x < 1 → levelToDb x = 20 * Real.logb 10 x := by
    intro x h0 h1
    rw [levelToDb, if_neg (not_le.mpr h0), if_neg (not_le.mpr h1)]
  have hdmid : ∀ d : ℝ, -60 < d → d < 0 → dbToLevel d = (10 : ℝ) ^ (d / 20) := by
    intro d h0 h1
    rw [dbToLevel, if_neg (not_le.mpr h0), if_neg (not_le.mpr h1)]
  have hfwd : ∀ x : ℝ, 1 / 1000 < x → x ≤ 1 → dbToLevel (levelToDb x) = x := by
    intro x hgt hle
    have hx : 0 < x := lt_trans (by norm_num) hgt
    rcases eq_or_lt_of_le hle with heq | hlt
    · subst heq
      rw [hl1, hd0]
    · rw [hlmid x hx hlt]
      have hlb_lt : Real.logb 10 x < 0 := Real.logb_neg h10 hx hlt
      have hlb_gt : (-3 : ℝ) < Real.logb 10 x := by
        rw [Real.lt_logb_iff_rpow_lt h10 hx, rpow_neg_three]
        exact hgt
      rw [dbToLevel, if_neg (by intro h; linarith), if_neg (by intro h; linarith)]
      rw [show (20 * Real.logb 10 x) / 20 = Real.logb 10 x by ring]
      exact Real.rpow_logb hpos hne hx
  refine ⟨hl0, hl1, hd60, hd0, hlmid, hdmid, ?_, hfwd, ?_⟩
  · intro d h0 h1
    rcases eq_or_lt_of_le h0 with heq | hgt
    · rw [← heq, hd60, hl0]
    · rcases eq_or_lt_of_le h1 with heq | hlt
      · subst heq
        rw [hd0, hl1]
      · rw [hdmid d hgt hlt]
        have hdiv : d / 20 < 0 := div_neg_of_neg_of_pos hlt (by norm_num)
        have hp0 : 0 < (10 : ℝ) ^ (d / 20) := Real.rpow_pos_of_pos hpos _
        have hp1 : (10 : ℝ) ^ (d / 20) < 1 :=
          Real.rpow_lt_one_of_one_lt_of_neg h10 hdiv
        rw [hlmid _ hp0 hp1, Real.logb_rpow hpos hne]
        ring
  · intro x h0 h1
    rcases lt_or_le (1 / 1000 : ℝ) x with hgt | hle
    · rw [hfwd x hgt h1]
      norm_num
    · rcases eq_or_lt_of_le h0 with heq | hx
      · rw [← heq, hl0, hd60]
        norm_num
      · have hlt1 : x < 1 := lt_of_le_of_lt hle (by norm_num)
        rw [hlmid x hx hlt1]
        have hlb_le : Real.logb 10 x ≤ -3 := by
          rw [Real.logb_le_iff_le_rpow h10 hx, rpow_neg_three]
          exact hle
        rw [dbToLevel, if_pos (by linarith)]
        rw [zero_sub, abs_neg, abs_of_pos hx]
        exact hle

end MonitorAudio
